import Mathlib

/-!
Verification of the MariaDB prepared-statement response decoder
(`src/mariadb/protocol/packets/binary/com_stmt_prepare_resp.rs`) and of the
MySQL test-harness cleanup routine (`sqlx-mysql/src/testing/mod.rs`).

Bytes are modelled as `Nat` (each produced value is below 2^8, 2^16, ... by
construction of the little-endian reads).  A packet is its payload, a
`List Nat`; the packet stream is a `List (List Nat)` of payloads, the
transport envelope having already been stripped by the framer.  Fallible
steps return `Except DecodeError`.
-/

/-- Error kinds of the decode layer. `Truncated`: fewer bytes than a field
requires; `UnexpectedHeader expected found`: a fixed marker byte mismatch;
`ConnectionClosed`: the packet source ended before a full packet;
`InvalidLenenc`: a length-encoded integer used the reserved 0xFF prefix. -/
inductive DecodeError : Type
  | Truncated : DecodeError
  | UnexpectedHeader : Nat → Nat → DecodeError
  | ConnectionClosed : DecodeError
  | InvalidLenenc : DecodeError
deriving Repr, DecidableEq

/-- Modelled from the spec: `Capabilities` is an immutable bitset of
negotiated feature flags with a `contains(flag)` test (bitflags semantics:
all bits of the flag are set). -/
structure Capabilities : Type where
  bits : Nat
deriving Repr, DecidableEq

/-- Bitflags containment: every bit of `flag` is set in `self`. -/
def Capabilities.contains (self flag : Capabilities) : Bool :=
  self.bits &&& flag.bits == flag.bits

/-- The CLIENT_PROTOCOL_41 capability flag (bit 9), as used by the tests. -/
def Capabilities.CLIENT_PROTOCOL_41 : Capabilities := ⟨512⟩

/-- The CLIENT_DEPRECATE_EOF capability flag (bit 24): the server omits the
legacy EOF terminator packet after a run of column-definition packets. -/
def Capabilities.CLIENT_DEPRECATE_EOF : Capabilities := ⟨16777216⟩

/-- Modelled from the spec: byte-cursor read of one byte. -/
def readU8 : List Nat → Except DecodeError (Nat × List Nat)
  | [] => .error .Truncated
  | b :: rest => .ok (b, rest)

/-- Modelled from the spec: little-endian fixed-width 2-byte read. -/
def readU16 : List Nat → Except DecodeError (Nat × List Nat)
  | b0 :: b1 :: rest => .ok (b0 + b1 * 256, rest)
  | _ => .error .Truncated

/-- Modelled from the spec: little-endian fixed-width 3-byte read. -/
def readU24 : List Nat → Except DecodeError (Nat × List Nat)
  | b0 :: b1 :: b2 :: rest => .ok (b0 + b1 * 256 + b2 * 65536, rest)
  | _ => .error .Truncated

/-- Modelled from the spec: little-endian fixed-width 4-byte read. -/
def readU32 : List Nat → Except DecodeError (Nat × List Nat)
  | b0 :: b1 :: b2 :: b3 :: rest =>
      .ok (b0 + b1 * 256 + b2 * 65536 + b3 * 16777216, rest)
  | _ => .error .Truncated

/-- Modelled from the spec: little-endian fixed-width 8-byte read (the
0xFE lenenc form). -/
def readU64 : List Nat → Except DecodeError (Nat × List Nat)
  | b0 :: b1 :: b2 :: b3 :: b4 :: b5 :: b6 :: b7 :: rest =>
      .ok (b0 + b1 * 2 ^ 8 + b2 * 2 ^ 16 + b3 * 2 ^ 24 + b4 * 2 ^ 32
            + b5 * 2 ^ 40 + b6 * 2 ^ 48 + b7 * 2 ^ 56, rest)
  | _ => .error .Truncated

/-- Modelled from the spec: read a raw span of `n` bytes, `Truncated` when
fewer remain. -/
def readBytes (n : Nat) (bs : List Nat) : Except DecodeError (List Nat × List Nat) :=
  if n ≤ bs.length then .ok (bs.take n, bs.drop n) else .error .Truncated

/-- Modelled from the spec: length-encoded integer.  A single byte in
[0, 0xFA] is the value itself; 0xFB encodes NULL (`none`); 0xFC/0xFD/0xFE
prefix 2/3/8 little-endian bytes; 0xFF is reserved and an error. -/
def readLenencInt (bs : List Nat) : Except DecodeError (Option Nat × List Nat) :=
  match bs with
  | [] => .error .Truncated
  | b :: rest =>
    if b ≤ 250 then .ok (some b, rest)
    else if b = 251 then .ok (none, rest)
    else if b = 252 then
      match readU16 rest with
      | .error e => .error e
      | .ok (v, r) => .ok (some v, r)
    else if b = 253 then
      match readU24 rest with
      | .error e => .error e
      | .ok (v, r) => .ok (some v, r)
    else if b = 254 then
      match readU64 rest with
      | .error e => .error e
      | .ok (v, r) => .ok (some v, r)
    else .error .InvalidLenenc

/-- Modelled from the spec: length-encoded string, a lenenc integer length
followed by that many raw bytes.  A NULL length has no meaning as a string
length in these packets and is rejected. -/
def readLenencString (bs : List Nat) : Except DecodeError (List Nat × List Nat) :=
  match readLenencInt bs with
  | .error e => .error e
  | .ok (none, _) => .error .InvalidLenenc
  | .ok (some n, rest) => readBytes n rest

/-- The prepare-ok packet: statement id, result-column count, parameter
count and warning count, as in the source's `ComStmtPrepareOk` (fields
`params` and `columns` are the names the composite decoder reads). -/
structure ComStmtPrepareOk : Type where
  statement_id : Nat
  columns : Nat
  params : Nat
  warning_count : Nat
deriving Repr, DecidableEq

/-- Modelled from the spec: decode a COM_STMT_PREPARE_OK payload.  Header
byte must equal the 0x00 marker, then statement id (u32), column count
(u16), parameter count (u16), one reserved filler byte, warning count
(u16), in that fixed order.  The decoders do not consult `Capabilities`;
the capability-dependent branching lives in the composite decoder. -/
def ComStmtPrepareOk.decode (payload : List Nat) : Except DecodeError ComStmtPrepareOk :=
  match readU8 payload with
  | .error e => .error e
  | .ok (header, r1) =>
    if header = 0 then
      match readU32 r1 with
      | .error e => .error e
      | .ok (sid, r2) =>
        match readU16 r2 with
        | .error e => .error e
        | .ok (cols, r3) =>
          match readU16 r3 with
          | .error e => .error e
          | .ok (ps, r4) =>
            match readU8 r4 with
            | .error e => .error e
            | .ok (_, r5) =>
              match readU16 r5 with
              | .error e => .error e
              | .ok (warn, _) => .ok ⟨sid, cols, ps, warn⟩
    else .error (.UnexpectedHeader 0 header)

/-- The column-definition packet (`ColumnDefPacket` in the source). -/
structure ColumnDefPacket : Type where
  catalog : List Nat
  schema : List Nat
  table_alias : List Nat
  table : List Nat
  column_alias : List Nat
  column : List Nat
  fixed_fields_length : Nat
  character_set : Nat
  column_size : Nat
  field_type : Nat
  flags : Nat
  decimals : Nat
deriving Repr, DecidableEq

/-- Modelled from the spec: decode a column-definition payload: six lenenc
strings in the order catalog, schema, table alias, table, column alias,
column; then the fixed-fields-length lenenc integer, character set (u16),
column size (u32), field type (u8), flags (u16), decimals (u8) and two
reserved bytes read and discarded. -/
def ColumnDefPacket.decode (payload : List Nat) : Except DecodeError ColumnDefPacket :=
  match readLenencString payload with
  | .error e => .error e
  | .ok (catalog, r1) =>
  match readLenencString r1 with
  | .error e => .error e
  | .ok (schema, r2) =>
  match readLenencString r2 with
  | .error e => .error e
  | .ok (table_alias, r3) =>
  match readLenencString r3 with
  | .error e => .error e
  | .ok (table, r4) =>
  match readLenencString r4 with
  | .error e => .error e
  | .ok (column_alias, r5) =>
  match readLenencString r5 with
  | .error e => .error e
  | .ok (column, r6) =>
  match readLenencInt r6 with
  | .error e => .error e
  | .ok (none, _) => .error .InvalidLenenc
  | .ok (some ffl, r7) =>
  match readU16 r7 with
  | .error e => .error e
  | .ok (charset, r8) =>
  match readU32 r8 with
  | .error e => .error e
  | .ok (colsize, r9) =>
  match readU8 r9 with
  | .error e => .error e
  | .ok (ftype, r10) =>
  match readU16 r10 with
  | .error e => .error e
  | .ok (fl, r11) =>
  match readU8 r11 with
  | .error e => .error e
  | .ok (dec, r12) =>
  match readBytes 2 r12 with
  | .error e => .error e
  | .ok (_, _) =>
    .ok ⟨catalog, schema, table_alias, table, column_alias, column,
         ffl, charset, colsize, ftype, fl, dec⟩

/-- The EOF packet's decoded value: warning count and server status. -/
structure EofPacket : Type where
  warning_count : Nat
  status : Nat
deriving Repr, DecidableEq

/-- Modelled from the spec: decode an EOF payload: a 1-byte header that
must equal the legacy EOF marker 0xFE, then warning count (u16) and server
status (u16). -/
def EofPacket.decode (payload : List Nat) : Except DecodeError EofPacket :=
  match readU8 payload with
  | .error e => .error e
  | .ok (header, r1) =>
    if header = 254 then
      match readU16 r1 with
      | .error e => .error e
      | .ok (w, r2) =>
        match readU16 r2 with
        | .error e => .error e
        | .ok (st, _) => .ok ⟨w, st⟩
    else .error (.UnexpectedHeader 254 header)

/-- Modelled from the spec: the framer's `next_packet` hands over the next
packet payload and fails with `ConnectionClosed` when the source ends. -/
def next_packet : List (List Nat) → Except DecodeError (List Nat × List (List Nat))
  | [] => .error .ConnectionClosed
  | p :: ps => .ok (p, ps)

/-- The composite decoded value (`ComStmtPrepareResp` in the source):
prepare-ok, optional parameter definitions, optional result columns. -/
structure ComStmtPrepareResp : Type where
  ok : ComStmtPrepareOk
  param_defs : Option (List ColumnDefPacket)
  res_columns : Option (List ColumnDefPacket)
deriving Repr, DecidableEq

/-- The source's `for _ in 0..n { ctx.next_packet().await?;
defs.push(ColumnDefPacket::decode(buf, capabilities)?); }` loop: fetch `n`
packets, decode each as a column definition, keep arrival order. -/
def decodeColumnDefs : Nat → List (List Nat) →
    Except DecodeError (List ColumnDefPacket × List (List Nat))
  | 0, s => .ok ([], s)
  | Nat.succ n, s =>
    match next_packet s with
    | .error e => .error e
    | .ok (buf, s1) =>
      match ColumnDefPacket.decode buf with
      | .error e => .error e
      | .ok cd =>
        match decodeColumnDefs n s1 with
        | .error e => .error e
        | .ok (cds, s2) => .ok (cd :: cds, s2)

/-- One column-definition group of `ComStmtPrepareResp::deserialize` (source
lines 18-39 for the parameter group, 41-58 for the identical result group):
if the count is positive, decode that many column definitions, then fetch
one more packet UNCONDITIONALLY (source lines 26 and 49 place the
`ctx.next_packet().await?` before the capability test), and decode the
fetched packet as `Eof` — value discarded — only when the capabilities do
not contain CLIENT_DEPRECATE_EOF.  A zero count consumes nothing.  The
source spells the first gate `ctx.ctx.capabilities` and the second
`capabilities`; the only capabilities value in scope is the function's
argument, so both gates read it. -/
def decodeDefGroup (count : Nat) (capabilities : Capabilities)
    (stream : List (List Nat)) :
    Except DecodeError (Option (List ColumnDefPacket) × List (List Nat)) :=
  if 0 < count then
    match decodeColumnDefs count stream with
    | .error e => .error e
    | .ok (defs, s) =>
      match next_packet s with
      | .error e => .error e
      | .ok (ebuf, s1) =>
        if ¬ (Capabilities.contains capabilities Capabilities.CLIENT_DEPRECATE_EOF) then
          match EofPacket.decode ebuf with
          | .error e => .error e
          | .ok _ => .ok (some defs, s1)
        else .ok (some defs, s1)
  else .ok (none, stream)

/-- The composite decoder `ComStmtPrepareResp::deserialize`: fetch one packet and decode it as
`ComStmtPrepareOk`, then run the parameter group for `ok.params` and the
result group for `ok.columns`, both gated on the same capabilities
argument.  Returns the response together with the unconsumed remainder of
the packet stream. -/
def ComStmtPrepareResp.deserialize (stream : List (List Nat))
    (capabilities : Capabilities) :
    Except DecodeError (ComStmtPrepareResp × List (List Nat)) :=
  match next_packet stream with
  | .error e => .error e
  | .ok (buf, s1) =>
    match ComStmtPrepareOk.decode buf with
    | .error e => .error e
    | .ok ok =>
      match decodeDefGroup ok.params capabilities s1 with
      | .error e => .error e
      | .ok (param_defs, s2) =>
        match decodeDefGroup ok.columns capabilities s2 with
        | .error e => .error e
        | .ok (res_columns, s3) => .ok (⟨ok, param_defs, res_columns⟩, s3)


/-! ### Helper lemmas about the composite decoder -/

theorem decodeColumnDefs_cons (n : Nat) (q : List Nat) (qs : List (List Nat)) :
    decodeColumnDefs (n + 1) (q :: qs) =
      match ColumnDefPacket.decode q with
      | .error e => .error e
      | .ok cd =>
        match decodeColumnDefs n qs with
        | .error e => .error e
        | .ok (cds, s2) => .ok (cd :: cds, s2) := rfl

theorem decodeColumnDefs_length (n : Nat) :
    ∀ (s : List (List Nat)) (cds : List ColumnDefPacket) (s' : List (List Nat)),
    decodeColumnDefs n s = .ok (cds, s') → cds.length = n := by
  induction n with
  | zero =>
    intro s cds s' h
    unfold decodeColumnDefs at h
    cases h
    rfl
  | succ n ih =>
    intro s cds s' h
    cases s with
    | nil =>
      unfold decodeColumnDefs next_packet at h
      exact absurd h (by simp)
    | cons q qs =>
      rw [decodeColumnDefs_cons] at h
      cases hcd : ColumnDefPacket.decode q with
      | error e => simp [hcd] at h
      | ok cd =>
        cases hrec : decodeColumnDefs n qs with
        | error e => simp [hcd, hrec] at h
        | ok pr =>
          obtain ⟨cds0, s2⟩ := pr
          simp only [hcd, hrec, Except.ok.injEq, Prod.mk.injEq] at h
          obtain ⟨hcds, hs⟩ := h
          subst hcds
          simp [ih qs cds0 s2 hrec]

theorem decodeColumnDefs_suffix (n : Nat) :
    ∀ (s : List (List Nat)) (cds : List ColumnDefPacket) (s' : List (List Nat)),
    decodeColumnDefs n s = .ok (cds, s') → ∃ pre, s = pre ++ s' := by
  induction n with
  | zero =>
    intro s cds s' h
    unfold decodeColumnDefs at h
    cases h
    exact ⟨[], rfl⟩
  | succ n ih =>
    intro s cds s' h
    cases s with
    | nil =>
      unfold decodeColumnDefs next_packet at h
      exact absurd h (by simp)
    | cons q qs =>
      rw [decodeColumnDefs_cons] at h
      cases hcd : ColumnDefPacket.decode q with
      | error e => simp [hcd] at h
      | ok cd =>
        cases hrec : decodeColumnDefs n qs with
        | error e => simp [hcd, hrec] at h
        | ok pr =>
          obtain ⟨cds0, s2⟩ := pr
          simp only [hcd, hrec, Except.ok.injEq, Prod.mk.injEq] at h
          obtain ⟨hcds, hs⟩ := h
          obtain ⟨pre, hpre⟩ := ih qs cds0 s2 hrec
          exact ⟨q :: pre, by simp [hpre, hs]⟩

theorem decodeColumnDefs_append (pkts : List (List Nat)) (cds : List ColumnDefPacket)
    (rest : List (List Nat))
    (hall : List.Forall₂ (fun q cd => ColumnDefPacket.decode q = .ok cd) pkts cds) :
    decodeColumnDefs pkts.length (pkts ++ rest) = .ok (cds, rest) := by
  induction hall with
  | nil => rfl
  | cons hqc htail ih =>
    rename_i q cd qs cds0
    simp only [List.length_cons, List.cons_append, decodeColumnDefs_cons, hqc, ih]

theorem decodeColumnDefs_tail_irrelevant (xs : List (List Nat)) :
    ∀ (t : List (List Nat)),
    decodeColumnDefs xs.length (xs ++ t) =
      match decodeColumnDefs xs.length xs with
      | .error e => .error e
      | .ok (cds, _) => .ok (cds, t) := by
  induction xs with
  | nil => intro t; rfl
  | cons q qs ih =>
    intro t
    rw [List.length_cons, List.cons_append, decodeColumnDefs_cons, decodeColumnDefs_cons]
    cases ColumnDefPacket.decode q with
    | error e => rfl
    | ok cd =>
      rw [ih t]
      cases decodeColumnDefs qs.length qs with
      | error e => rfl
      | ok pr =>
        obtain ⟨cds0, s0⟩ := pr
        rfl

theorem decodeDefGroup_ok_inv (count : Nat) (capabilities : Capabilities)
    (t : List (List Nat)) (o : Option (List ColumnDefPacket)) (t' : List (List Nat))
    (h : decodeDefGroup count capabilities t = .ok (o, t')) :
    (o.isSome = true ↔ 0 < count) ∧
    (∀ ds, o = some ds → ds.length = count) ∧
    (∃ pre, t = pre ++ t') := by
  unfold decodeDefGroup at h
  by_cases hc : 0 < count
  · simp only [if_pos hc] at h
    cases hdc : decodeColumnDefs count t with
    | error e => simp [hdc] at h
    | ok pr =>
      obtain ⟨defs, s⟩ := pr
      simp only [hdc] at h
      cases s with
      | nil => simp [next_packet] at h
      | cons e1 s1 =>
        simp only [next_packet] at h
        obtain ⟨pre, hpre⟩ := decodeColumnDefs_suffix count t defs (e1 :: s1) hdc
        have hlen := decodeColumnDefs_length count t defs (e1 :: s1) hdc
        by_cases hflag :
            Capabilities.contains capabilities Capabilities.CLIENT_DEPRECATE_EOF = true
        · rw [if_neg (by simp [hflag])] at h
          simp only [Except.ok.injEq, Prod.mk.injEq] at h
          obtain ⟨ho, hs⟩ := h
          subst ho
          subst hs
          refine ⟨by simp [hc], ?_, ⟨pre ++ [e1], by simp [hpre]⟩⟩
          intro ds hds
          cases hds
          exact hlen
        · rw [if_pos hflag] at h
          cases heof : EofPacket.decode e1 with
          | error e => simp [heof] at h
          | ok v =>
            simp only [heof, Except.ok.injEq, Prod.mk.injEq] at h
            obtain ⟨ho, hs⟩ := h
            subst ho
            subst hs
            refine ⟨by simp [hc], ?_, ⟨pre ++ [e1], by simp [hpre]⟩⟩
            intro ds hds
            cases hds
            exact hlen
  · simp only [if_neg hc, Except.ok.injEq, Prod.mk.injEq] at h
    obtain ⟨ho, hs⟩ := h
    subst ho
    subst hs
    refine ⟨by simp [hc], ?_, ⟨[], rfl⟩⟩
    intro ds hds
    cases hds

theorem decodeDefGroup_congr (caps1 caps2 : Capabilities)
    (h : Capabilities.contains caps1 Capabilities.CLIENT_DEPRECATE_EOF =
         Capabilities.contains caps2 Capabilities.CLIENT_DEPRECATE_EOF)
    (count : Nat) (t : List (List Nat)) :
    decodeDefGroup count caps1 t = decodeDefGroup count caps2 t := by
  unfold decodeDefGroup
  simp only [h]

theorem deserialize_ok_inv (s : List (List Nat)) (capabilities : Capabilities)
    (resp : ComStmtPrepareResp) (s' : List (List Nat))
    (h : ComStmtPrepareResp.deserialize s capabilities = .ok (resp, s')) :
    ∃ p t s2,
      s = p :: t ∧
      ComStmtPrepareOk.decode p = .ok resp.ok ∧
      decodeDefGroup resp.ok.params capabilities t = .ok (resp.param_defs, s2) ∧
      decodeDefGroup resp.ok.columns capabilities s2 = .ok (resp.res_columns, s') := by
  cases s with
  | nil =>
    unfold ComStmtPrepareResp.deserialize next_packet at h
    exact absurd h (by simp)
  | cons p t =>
    unfold ComStmtPrepareResp.deserialize at h
    simp only [next_packet] at h
    cases hok : ComStmtPrepareOk.decode p with
    | error e => simp [hok] at h
    | ok okv =>
      simp only [hok] at h
      cases h1 : decodeDefGroup okv.params capabilities t with
      | error e => simp [h1] at h
      | ok pr1 =>
        obtain ⟨pd, s2⟩ := pr1
        simp only [h1] at h
        cases h2 : decodeDefGroup okv.columns capabilities s2 with
        | error e => simp [h2] at h
        | ok pr2 =>
          obtain ⟨rc, s3⟩ := pr2
          simp only [h2, Except.ok.injEq, Prod.mk.injEq] at h
          obtain ⟨hresp, hs⟩ := h
          subst hresp
          subst hs
          exact ⟨p, t, s2, rfl, hok, h1, h2⟩

/-! ### Concrete packets used as witnesses -/

/-- A prepare-ok payload: header 0x00, statement id 1, the given column
count, the given parameter count, one filler byte, warning count 0. -/
def okPacket (cols ps : Nat) : List Nat := [0, 1, 0, 0, 0, cols, 0, ps, 0, 0, 0, 0]

/-- A column-definition payload: six empty lenenc strings, fixed-fields
length 12, character set 8, column size 65535, field type 252, flags
0x1011, decimals 0, two reserved bytes. -/
def colDefPacket : List Nat := [0, 0, 0, 0, 0, 0, 12, 8, 0, 255, 255, 0, 0, 252, 17, 16, 0, 0, 0]

/-- The value `colDefPacket` decodes to. -/
def colDefValue : ColumnDefPacket := ⟨[], [], [], [], [], [], 12, 8, 65535, 252, 4113, 0⟩

/-- An EOF payload: header 0xFE, the given warning count and status. -/
def eofPacket (w st : Nat) : List Nat := [254, w, 0, st, 0]

/-! ### Claims -/

/-- C1 (code bug): with CLIENT_DEPRECATE_EOF negotiated and a stream
carrying a prepare-ok announcing parameter_count = 1 and column_count = 1
followed by one column-definition packet per group and no EOF packets —
the exact scenario the claim says must decode successfully — the decoder
still fetches one extra packet after the non-empty parameter group (the
unconditional `next_packet` of source line 26 sits before the capability
test of lines 28-32), silently consuming the result group's
column-definition packet, and the whole decode then fails with
ConnectionClosed when the result group finds the stream empty. -/
theorem deserialize_deprecate_eof_still_fetches :
    ComStmtPrepareOk.decode (okPacket 1 1) = .ok ⟨1, 1, 1, 0⟩ ∧
    ColumnDefPacket.decode colDefPacket = .ok colDefValue ∧
    Capabilities.contains Capabilities.CLIENT_DEPRECATE_EOF
      Capabilities.CLIENT_DEPRECATE_EOF = true ∧
    ComStmtPrepareResp.deserialize [okPacket 1 1, colDefPacket, colDefPacket]
      Capabilities.CLIENT_DEPRECATE_EOF = .error .ConnectionClosed :=
  ⟨rfl, rfl, rfl, rfl⟩

/-- C2: a prepare-ok announcing zero parameters and zero columns decodes,
under any capability set, to a response with both definition groups
absent, consuming exactly the one prepare-ok packet (the remainder of the
stream is returned untouched). -/
theorem deserialize_zero_counts (p : List Nat) (rest : List (List Nat))
    (capabilities : Capabilities) (okv : ComStmtPrepareOk)
    (hok : ComStmtPrepareOk.decode p = .ok okv)
    (hp : okv.params = 0) (hc : okv.columns = 0) :
    ComStmtPrepareResp.deserialize (p :: rest) capabilities =
      .ok (⟨okv, none, none⟩, rest) := by
  unfold ComStmtPrepareResp.deserialize
  simp [next_packet, hok, decodeDefGroup, hp, hc]

/-- Witness for C2 at a concrete zero-count prepare-ok packet. -/
theorem deserialize_zero_counts_witness :
    ComStmtPrepareOk.decode (okPacket 0 0) = .ok ⟨1, 0, 0, 0⟩ ∧
    ComStmtPrepareResp.deserialize [okPacket 0 0] Capabilities.CLIENT_PROTOCOL_41 =
      .ok (⟨⟨1, 0, 0, 0⟩, none, none⟩, []) :=
  ⟨rfl, deserialize_zero_counts (okPacket 0 0) [] Capabilities.CLIENT_PROTOCOL_41
    ⟨1, 0, 0, 0⟩ rfl rfl rfl⟩

theorem decodeColumnDefs_first_error (pre : List (List Nat)) (cds : List ColumnDefPacket)
    (hall : List.Forall₂ (fun x cd => ColumnDefPacket.decode x = .ok cd) pre cds) :
    ∀ (n : Nat) (q : List Nat) (rest : List (List Nat)) (e : DecodeError),
    pre.length < n → ColumnDefPacket.decode q = .error e →
    decodeColumnDefs n (pre ++ q :: rest) = .error e := by
  induction hall with
  | nil =>
    intro n q rest e hlt he
    cases n with
    | zero => simp at hlt
    | succ m => simp only [List.nil_append, decodeColumnDefs_cons, he]
  | cons hqc htail ih =>
    rename_i x cd xs cds0
    intro n q rest e hlt he
    cases n with
    | zero => simp at hlt
    | succ m =>
      have hlt2 : xs.length < m := by
        simp only [List.length_cons] at hlt
        omega
      simp only [List.cons_append, decodeColumnDefs_cons, hqc,
        ih m q rest e hlt2 he]

theorem decodeDefGroup_defs_error (count : Nat) (capabilities : Capabilities)
    (t : List (List Nat)) (e : DecodeError)
    (hpos : 0 < count) (he : decodeColumnDefs count t = .error e) :
    decodeDefGroup count capabilities t = .error e := by
  unfold decodeDefGroup
  rw [if_pos hpos, he]

theorem deserialize_group_error (capabilities : Capabilities) (p : List Nat)
    (t : List (List Nat)) (okv : ComStmtPrepareOk) (e : DecodeError)
    (hok : ComStmtPrepareOk.decode p = .ok okv)
    (herr : decodeDefGroup okv.params capabilities t = .error e) :
    ComStmtPrepareResp.deserialize (p :: t) capabilities = .error e := by
  unfold ComStmtPrepareResp.deserialize
  simp only [next_packet, hok, herr]

theorem deserialize_result_group_error (capabilities : Capabilities) (p : List Nat)
    (t : List (List Nat)) (okv : ComStmtPrepareOk)
    (pd : Option (List ColumnDefPacket)) (s2 : List (List Nat)) (e : DecodeError)
    (hok : ComStmtPrepareOk.decode p = .ok okv)
    (h1 : decodeDefGroup okv.params capabilities t = .ok (pd, s2))
    (herr : decodeDefGroup okv.columns capabilities s2 = .error e) :
    ComStmtPrepareResp.deserialize (p :: t) capabilities = .error e := by
  unfold ComStmtPrepareResp.deserialize
  simp only [next_packet, hok, h1, herr]

theorem decodeColumnDefs_fetch_error (pre : List (List Nat)) (cds : List ColumnDefPacket)
    (hall : List.Forall₂ (fun x cd => ColumnDefPacket.decode x = .ok cd) pre cds) :
    ∀ (n : Nat), pre.length < n →
    decodeColumnDefs n pre = .error .ConnectionClosed := by
  induction hall with
  | nil =>
    intro n hlt
    cases n with
    | zero => simp at hlt
    | succ m => rfl
  | cons hqc htail ih =>
    rename_i x cd xs cds0
    intro n hlt
    cases n with
    | zero => simp at hlt
    | succ m =>
      have hlt2 : xs.length < m := by
        simp only [List.length_cons] at hlt
        omega
      simp only [decodeColumnDefs_cons, hqc, ih m hlt2]

theorem decodeDefGroup_terminator_fetch_error (capabilities : Capabilities)
    (pkts : List (List Nat)) (cds : List ColumnDefPacket) (count : Nat)
    (hall : List.Forall₂ (fun x cd => ColumnDefPacket.decode x = .ok cd) pkts cds)
    (hlen : pkts.length = count) (hpos : 0 < count) :
    decodeDefGroup count capabilities pkts = .error .ConnectionClosed := by
  have hdc : decodeColumnDefs count pkts = .ok (cds, []) := by
    have h0 := decodeColumnDefs_append pkts cds [] hall
    rw [List.append_nil] at h0
    rw [← hlen]
    exact h0
  unfold decodeDefGroup
  rw [if_pos hpos, hdc]
  simp [next_packet]

theorem decodeDefGroup_eof_error (capabilities : Capabilities)
    (pkts : List (List Nat)) (cds : List ColumnDefPacket) (q : List Nat)
    (rest : List (List Nat)) (count : Nat) (e : DecodeError)
    (hflag : Capabilities.contains capabilities Capabilities.CLIENT_DEPRECATE_EOF = false)
    (hall : List.Forall₂ (fun x cd => ColumnDefPacket.decode x = .ok cd) pkts cds)
    (hlen : pkts.length = count) (hpos : 0 < count)
    (heof : EofPacket.decode q = .error e) :
    decodeDefGroup count capabilities (pkts ++ q :: rest) = .error e := by
  have hdc : decodeColumnDefs count (pkts ++ q :: rest) = .ok (cds, q :: rest) := by
    rw [← hlen]
    exact decodeColumnDefs_append pkts cds (q :: rest) hall
  unfold decodeDefGroup
  rw [if_pos hpos, hdc]
  simp only [next_packet]
  rw [if_pos (by simp [hflag]), heof]

/-- C3: decoding is fail-stop and surfaces the first error of every
sub-decode step.  Conjuncts: (1) a packet-fetch failure on an empty source
surfaces as ConnectionClosed; (2) a failing prepare-ok decode surfaces as
that exact error; (3) any parameter-group failure and (4) any result-group
failure — reached after a successful parameter group — abort the whole
decode with that group's error and no response value; a group fails with
its step's exact error when (5) a column-definition decode fails at any
position of the counted loop, (6) the source ends inside the counted loop,
(7) the source ends at the terminator fetch after a full group, or (8) the
EOF-terminator decode fails with the deprecate-EOF flag absent; and (9) a
successful decode never carries a half-built group — every present group
holds exactly the number of column definitions the prepare-ok announced.
Nothing is retried: each conjunct equates the whole decode with the first
failing step's error. -/
theorem deserialize_fail_stop (capabilities : Capabilities) :
    ComStmtPrepareResp.deserialize [] capabilities = .error .ConnectionClosed ∧
    (∀ (p : List Nat) (rest : List (List Nat)) (e : DecodeError),
      ComStmtPrepareOk.decode p = .error e →
      ComStmtPrepareResp.deserialize (p :: rest) capabilities = .error e) ∧
    (∀ (p : List Nat) (t : List (List Nat)) (okv : ComStmtPrepareOk) (e : DecodeError),
      ComStmtPrepareOk.decode p = .ok okv →
      decodeDefGroup okv.params capabilities t = .error e →
      ComStmtPrepareResp.deserialize (p :: t) capabilities = .error e) ∧
    (∀ (p : List Nat) (t : List (List Nat)) (okv : ComStmtPrepareOk)
       (pd : Option (List ColumnDefPacket)) (s2 : List (List Nat)) (e : DecodeError),
      ComStmtPrepareOk.decode p = .ok okv →
      decodeDefGroup okv.params capabilities t = .ok (pd, s2) →
      decodeDefGroup okv.columns capabilities s2 = .error e →
      ComStmtPrepareResp.deserialize (p :: t) capabilities = .error e) ∧
    (∀ (pre : List (List Nat)) (cds : List ColumnDefPacket) (q : List Nat)
       (rest : List (List Nat)) (count : Nat) (e : DecodeError),
      List.Forall₂ (fun x cd => ColumnDefPacket.decode x = .ok cd) pre cds →
      pre.length < count →
      ColumnDefPacket.decode q = .error e →
      decodeDefGroup count capabilities (pre ++ q :: rest) = .error e) ∧
    (∀ (pre : List (List Nat)) (cds : List ColumnDefPacket) (count : Nat),
      List.Forall₂ (fun x cd => ColumnDefPacket.decode x = .ok cd) pre cds →
      pre.length < count →
      decodeDefGroup count capabilities pre = .error .ConnectionClosed) ∧
    (∀ (pkts : List (List Nat)) (cds : List ColumnDefPacket) (count : Nat),
      List.Forall₂ (fun x cd => ColumnDefPacket.decode x = .ok cd) pkts cds →
      pkts.length = count → 0 < count →
      decodeDefGroup count capabilities pkts = .error .ConnectionClosed) ∧
    (∀ (pkts : List (List Nat)) (cds : List ColumnDefPacket) (q : List Nat)
       (rest : List (List Nat)) (count : Nat) (e : DecodeError),
      Capabilities.contains capabilities Capabilities.CLIENT_DEPRECATE_EOF = false →
      List.Forall₂ (fun x cd => ColumnDefPacket.decode x = .ok cd) pkts cds →
      pkts.length = count → 0 < count →
      EofPacket.decode q = .error e →
      decodeDefGroup count capabilities (pkts ++ q :: rest) = .error e) ∧
    (∀ (s : List (List Nat)) (resp : ComStmtPrepareResp) (s' : List (List Nat)),
      ComStmtPrepareResp.deserialize s capabilities = .ok (resp, s') →
      (∀ ds, resp.param_defs = some ds → ds.length = resp.ok.params) ∧
      (∀ ds, resp.res_columns = some ds → ds.length = resp.ok.columns)) := by
  refine ⟨rfl, ?_, ?_, ?_, ?_, ?_, ?_, ?_, ?_⟩
  · intro p rest e he
    unfold ComStmtPrepareResp.deserialize
    simp [next_packet, he]
  · intro p t okv e hok herr
    exact deserialize_group_error capabilities p t okv e hok herr
  · intro p t okv pd s2 e hok h1 herr
    exact deserialize_result_group_error capabilities p t okv pd s2 e hok h1 herr
  · intro pre cds q rest count e hall hlt he
    exact decodeDefGroup_defs_error count capabilities (pre ++ q :: rest) e
      (Nat.lt_of_le_of_lt (Nat.zero_le pre.length) hlt)
      (decodeColumnDefs_first_error pre cds hall count q rest e hlt he)
  · intro pre cds count hall hlt
    exact decodeDefGroup_defs_error count capabilities pre .ConnectionClosed
      (Nat.lt_of_le_of_lt (Nat.zero_le pre.length) hlt)
      (decodeColumnDefs_fetch_error pre cds hall count hlt)
  · intro pkts cds count hall hlen hpos
    exact decodeDefGroup_terminator_fetch_error capabilities pkts cds count hall hlen hpos
  · intro pkts cds q rest count e hflag hall hlen hpos heof
    exact decodeDefGroup_eof_error capabilities pkts cds q rest count e hflag hall
      hlen hpos heof
  · intro s resp s' h
    obtain ⟨p, t, s2, hst, hok, h1, h2⟩ := deserialize_ok_inv s capabilities resp s' h
    obtain ⟨-, hlen1, -⟩ := decodeDefGroup_ok_inv _ _ _ _ _ h1
    obtain ⟨-, hlen2, -⟩ := decodeDefGroup_ok_inv _ _ _ _ _ h2
    exact ⟨hlen1, hlen2⟩

/-- Witness for C3, exercising every failure kind at a concrete input: a
bad prepare-ok header; a bad column definition in the parameter loop; a
bad (non-EOF) terminator packet; a bad column definition in the result
group; the source ending inside the parameter loop; the source ending at
the (unconditional) terminator fetch; and a concrete successful decode
with a full one-element parameter group. -/
theorem deserialize_fail_stop_witness :
    ComStmtPrepareResp.deserialize [[5]] Capabilities.CLIENT_PROTOCOL_41 =
      .error (.UnexpectedHeader 0 5) ∧
    ComStmtPrepareResp.deserialize [okPacket 1 2, colDefPacket, [255]]
      Capabilities.CLIENT_PROTOCOL_41 = .error .InvalidLenenc ∧
    ComStmtPrepareResp.deserialize [okPacket 0 1, colDefPacket, [7]]
      Capabilities.CLIENT_PROTOCOL_41 = .error (.UnexpectedHeader 254 7) ∧
    ComStmtPrepareResp.deserialize [okPacket 1 1, colDefPacket, eofPacket 0 0, [255]]
      Capabilities.CLIENT_PROTOCOL_41 = .error .InvalidLenenc ∧
    ComStmtPrepareResp.deserialize [okPacket 0 1] Capabilities.CLIENT_PROTOCOL_41 =
      .error .ConnectionClosed ∧
    ComStmtPrepareResp.deserialize [okPacket 0 1, colDefPacket]
      Capabilities.CLIENT_DEPRECATE_EOF = .error .ConnectionClosed ∧
    [colDefValue].length = 1 :=
  ⟨(deserialize_fail_stop Capabilities.CLIENT_PROTOCOL_41).2.1 [5] []
      (.UnexpectedHeader 0 5) rfl,
   (deserialize_fail_stop Capabilities.CLIENT_PROTOCOL_41).2.2.1
      (okPacket 1 2) [colDefPacket, [255]] ⟨1, 1, 2, 0⟩ .InvalidLenenc rfl
      ((deserialize_fail_stop Capabilities.CLIENT_PROTOCOL_41).2.2.2.2.1
        [colDefPacket] [colDefValue] [255] [] 2 .InvalidLenenc
        (List.Forall₂.cons rfl List.Forall₂.nil) (by decide) rfl),
   (deserialize_fail_stop Capabilities.CLIENT_PROTOCOL_41).2.2.1
      (okPacket 0 1) [colDefPacket, [7]] ⟨1, 0, 1, 0⟩ (.UnexpectedHeader 254 7) rfl
      ((deserialize_fail_stop Capabilities.CLIENT_PROTOCOL_41).2.2.2.2.2.2.2.1
        [colDefPacket] [colDefValue] [7] [] 1 (.UnexpectedHeader 254 7) rfl
        (List.Forall₂.cons rfl List.Forall₂.nil) rfl (by decide) rfl),
   (deserialize_fail_stop Capabilities.CLIENT_PROTOCOL_41).2.2.2.1
      (okPacket 1 1) [colDefPacket, eofPacket 0 0, [255]] ⟨1, 1, 1, 0⟩
      (some [colDefValue]) [[255]] .InvalidLenenc rfl rfl
      ((deserialize_fail_stop Capabilities.CLIENT_PROTOCOL_41).2.2.2.2.1
        [] [] [255] [] 1 .InvalidLenenc List.Forall₂.nil (by decide) rfl),
   (deserialize_fail_stop Capabilities.CLIENT_PROTOCOL_41).2.2.1
      (okPacket 0 1) [] ⟨1, 0, 1, 0⟩ .ConnectionClosed rfl
      ((deserialize_fail_stop Capabilities.CLIENT_PROTOCOL_41).2.2.2.2.2.1
        [] [] 1 List.Forall₂.nil (by decide)),
   (deserialize_fail_stop Capabilities.CLIENT_DEPRECATE_EOF).2.2.1
      (okPacket 0 1) [colDefPacket] ⟨1, 0, 1, 0⟩ .ConnectionClosed rfl
      ((deserialize_fail_stop Capabilities.CLIENT_DEPRECATE_EOF).2.2.2.2.2.2.1
        [colDefPacket] [colDefValue] 1 (List.Forall₂.cons rfl List.Forall₂.nil)
        rfl (by decide)),
   ((deserialize_fail_stop Capabilities.CLIENT_DEPRECATE_EOF).2.2.2.2.2.2.2.2
      [okPacket 1 1, colDefPacket, eofPacket 0 0, colDefPacket, eofPacket 0 0]
      ⟨⟨1, 1, 1, 0⟩, some [colDefValue], some [colDefValue]⟩ [] rfl).1
      [colDefValue] rfl⟩

/-- C6: in every successfully decoded response, the parameter definitions
are present exactly when the prepare-ok's parameter count is positive, and
the result definitions exactly when its column count is positive. -/
theorem deserialize_presence_iff (s : List (List Nat)) (capabilities : Capabilities)
    (resp : ComStmtPrepareResp) (s' : List (List Nat))
    (h : ComStmtPrepareResp.deserialize s capabilities = .ok (resp, s')) :
    (resp.param_defs.isSome = true ↔ 0 < resp.ok.params) ∧
    (resp.res_columns.isSome = true ↔ 0 < resp.ok.columns) := by
  obtain ⟨p, t, s2, hst, hok, h1, h2⟩ := deserialize_ok_inv s capabilities resp s' h
  obtain ⟨hi1, -, -⟩ := decodeDefGroup_ok_inv _ _ _ _ _ h1
  obtain ⟨hi2, -, -⟩ := decodeDefGroup_ok_inv _ _ _ _ _ h2
  exact ⟨hi1, hi2⟩

/-- Witness for C6 on a concrete stream with one parameter and no result
columns: the parameter group is present, the result group absent. -/
theorem deserialize_presence_iff_witness :
    ((some [colDefValue] : Option (List ColumnDefPacket)).isSome = true ↔ 0 < (1 : Nat)) ∧
    ((none : Option (List ColumnDefPacket)).isSome = true ↔ 0 < (0 : Nat)) :=
  deserialize_presence_iff [okPacket 0 1, colDefPacket, eofPacket 0 0]
    Capabilities.CLIENT_DEPRECATE_EOF
    ⟨⟨1, 0, 1, 0⟩, some [colDefValue], none⟩ [] rfl

/-- C8: the decode result depends on the capabilities argument only through
its CLIENT_DEPRECATE_EOF flag, the single flag gating the terminator of
both the parameter group and the result group: any two capability sets
that agree on that flag decode every stream identically, so the two groups
are always terminated consistently. -/
theorem deserialize_single_flag_gate (s : List (List Nat)) (caps1 caps2 : Capabilities)
    (h : Capabilities.contains caps1 Capabilities.CLIENT_DEPRECATE_EOF =
         Capabilities.contains caps2 Capabilities.CLIENT_DEPRECATE_EOF) :
    ComStmtPrepareResp.deserialize s caps1 = ComStmtPrepareResp.deserialize s caps2 := by
  unfold ComStmtPrepareResp.deserialize
  simp only [decodeDefGroup_congr caps1 caps2 h]

/-- Witness for C8: CLIENT_PROTOCOL_41 and the empty capability set agree
on CLIENT_DEPRECATE_EOF, so they decode a concrete stream identically. -/
theorem deserialize_single_flag_gate_witness :
    ComStmtPrepareResp.deserialize
      [okPacket 1 1, colDefPacket, eofPacket 0 34, colDefPacket, eofPacket 0 34]
      Capabilities.CLIENT_PROTOCOL_41 =
    ComStmtPrepareResp.deserialize
      [okPacket 1 1, colDefPacket, eofPacket 0 34, colDefPacket, eofPacket 0 34]
      ⟨0⟩ :=
  deserialize_single_flag_gate _ Capabilities.CLIENT_PROTOCOL_41 ⟨0⟩ rfl

/-- C4: when the prepare-ok announces N > 0 parameters, the decoder decodes
exactly the next N packets as column definitions in arrival order: the
parameter loop consumes precisely the N packets following the prepare-ok
and yields them in order, and any overall success carries the prepare-ok's
own counts together with exactly those definitions in param_defs. -/
theorem deserialize_param_group_exact (capabilities : Capabilities)
    (p : List Nat) (pkts rest : List (List Nat))
    (okv : ComStmtPrepareOk) (cds : List ColumnDefPacket)
    (hok : ComStmtPrepareOk.decode p = .ok okv)
    (hall : List.Forall₂ (fun q cd => ColumnDefPacket.decode q = .ok cd) pkts cds)
    (hlen : pkts.length = okv.params)
    (hpos : 0 < okv.params) :
    decodeColumnDefs okv.params (pkts ++ rest) = .ok (cds, rest) ∧
    (∀ (resp : ComStmtPrepareResp) (s' : List (List Nat)),
      ComStmtPrepareResp.deserialize (p :: (pkts ++ rest)) capabilities = .ok (resp, s') →
      resp.ok = okv ∧ resp.param_defs = some cds) := by
  have hdc : decodeColumnDefs okv.params (pkts ++ rest) = .ok (cds, rest) := by
    rw [← hlen]
    exact decodeColumnDefs_append pkts cds rest hall
  refine ⟨hdc, ?_⟩
  intro resp s' h
  obtain ⟨p1, t, s2, hst, hok1, h1, h2⟩ := deserialize_ok_inv _ _ _ _ h
  obtain ⟨hpp, htt⟩ := List.cons_eq_cons.mp hst
  subst hpp
  subst htt
  have hoe : okv = resp.ok := by
    rw [hok] at hok1
    exact Except.ok.inj hok1
  rw [← hoe] at h1
  unfold decodeDefGroup at h1
  rw [if_pos hpos, hdc] at h1
  cases rest with
  | nil => simp [next_packet] at h1
  | cons e1 r1 =>
    simp only [next_packet] at h1
    by_cases hflag :
        Capabilities.contains capabilities Capabilities.CLIENT_DEPRECATE_EOF = true
    · rw [if_neg (by simp [hflag])] at h1
      simp only [Except.ok.injEq, Prod.mk.injEq] at h1
      exact ⟨hoe.symm, h1.1.symm⟩
    · rw [if_pos hflag] at h1
      cases heof : EofPacket.decode e1 with
      | error e => simp [heof] at h1
      | ok v =>
        simp only [heof, Except.ok.injEq, Prod.mk.injEq] at h1
        exact ⟨hoe.symm, h1.1.symm⟩

/-- Witness for C4: one parameter-definition packet decodes into a
one-element parameter group with the prepare-ok's counts. -/
theorem deserialize_param_group_exact_witness :
    decodeColumnDefs 1 [colDefPacket, eofPacket 0 0, colDefPacket, eofPacket 0 0] =
      .ok ([colDefValue], [eofPacket 0 0, colDefPacket, eofPacket 0 0]) ∧
    ((⟨⟨1, 1, 1, 0⟩, some [colDefValue], some [colDefValue]⟩ : ComStmtPrepareResp).ok =
        ⟨1, 1, 1, 0⟩ ∧
     (⟨⟨1, 1, 1, 0⟩, some [colDefValue], some [colDefValue]⟩ :
        ComStmtPrepareResp).param_defs = some [colDefValue]) :=
  ⟨(deserialize_param_group_exact Capabilities.CLIENT_DEPRECATE_EOF (okPacket 1 1)
      [colDefPacket] [eofPacket 0 0, colDefPacket, eofPacket 0 0] ⟨1, 1, 1, 0⟩
      [colDefValue] rfl (List.Forall₂.cons rfl List.Forall₂.nil) rfl (by decide)).1,
   (deserialize_param_group_exact Capabilities.CLIENT_DEPRECATE_EOF (okPacket 1 1)
      [colDefPacket] [eofPacket 0 0, colDefPacket, eofPacket 0 0] ⟨1, 1, 1, 0⟩
      [colDefValue] rfl (List.Forall₂.cons rfl List.Forall₂.nil) rfl (by decide)).2
      ⟨⟨1, 1, 1, 0⟩, some [colDefValue], some [colDefValue]⟩ [] rfl⟩

/-- C5: every successful decode factors the stream as the prepare-ok
packet, then the consumed parameter section, then the consumed result
section, then the untouched leftover: the parameter group — the packets
that fill param_defs — is consumed from the stream entirely before the
first result-column packet, matching wire arrival order. -/
theorem deserialize_params_precede_results (s : List (List Nat))
    (capabilities : Capabilities) (resp : ComStmtPrepareResp) (s' : List (List Nat))
    (h : ComStmtPrepareResp.deserialize s capabilities = .ok (resp, s')) :
    ∃ p pre1 pre2,
      s = p :: (pre1 ++ (pre2 ++ s')) ∧
      ComStmtPrepareOk.decode p = .ok resp.ok ∧
      decodeDefGroup resp.ok.params capabilities (pre1 ++ (pre2 ++ s')) =
        .ok (resp.param_defs, pre2 ++ s') ∧
      decodeDefGroup resp.ok.columns capabilities (pre2 ++ s') =
        .ok (resp.res_columns, s') := by
  obtain ⟨p, t, s2, hst, hok, h1, h2⟩ := deserialize_ok_inv s capabilities resp s' h
  obtain ⟨-, -, pre2, hpre2⟩ := decodeDefGroup_ok_inv _ _ _ _ _ h2
  subst hpre2
  obtain ⟨-, -, pre1, hpre1⟩ := decodeDefGroup_ok_inv _ _ _ _ _ h1
  subst hpre1
  exact ⟨p, pre1, pre2, hst, hok, h1, h2⟩

/-- The decoded response of the five-packet legacy-EOF stream used below. -/
def respBoth : ComStmtPrepareResp :=
  ⟨⟨1, 1, 1, 0⟩, some [colDefValue], some [colDefValue]⟩

/-- Witness for C5 on a concrete legacy five-packet stream. -/
theorem deserialize_params_precede_results_witness :
    ∃ p pre1 pre2,
      [okPacket 1 1, colDefPacket, eofPacket 0 34, colDefPacket, eofPacket 0 34] =
        p :: (pre1 ++ (pre2 ++ ([] : List (List Nat)))) ∧
      ComStmtPrepareOk.decode p = .ok respBoth.ok ∧
      decodeDefGroup respBoth.ok.params Capabilities.CLIENT_PROTOCOL_41
        (pre1 ++ (pre2 ++ [])) = .ok (respBoth.param_defs, pre2 ++ []) ∧
      decodeDefGroup respBoth.ok.columns Capabilities.CLIENT_PROTOCOL_41
        (pre2 ++ []) = .ok (respBoth.res_columns, []) :=
  deserialize_params_precede_results
    [okPacket 1 1, colDefPacket, eofPacket 0 34, colDefPacket, eofPacket 0 34]
    Capabilities.CLIENT_PROTOCOL_41 respBoth [] rfl

theorem decodeDefGroup_eof_shape (capabilities : Capabilities)
    (pkts tail : List (List Nat)) (e : List Nat) (v : EofPacket)
    (hflag : Capabilities.contains capabilities Capabilities.CLIENT_DEPRECATE_EOF = false)
    (he : EofPacket.decode e = .ok v)
    (hpos : 0 < pkts.length) :
    decodeDefGroup pkts.length capabilities (pkts ++ e :: tail) =
      match decodeColumnDefs pkts.length pkts with
      | .error err => .error err
      | .ok (cds, _) => .ok (some cds, tail) := by
  unfold decodeDefGroup
  rw [if_pos hpos, decodeColumnDefs_tail_irrelevant pkts (e :: tail)]
  cases decodeColumnDefs pkts.length pkts with
  | error err => rfl
  | ok pr =>
    obtain ⟨cds, s0⟩ := pr
    simp only [next_packet]
    rw [if_pos (by simp [hflag]), he]

/-- C7: when the deprecate-EOF capability is absent, the decoded values of
the terminator EOF packets (warning count and server status) are
discarded: two streams that differ only in their terminator packets — both
variants still decoding as EOF, with arbitrary warning/status values —
produce identical decode results. -/
theorem deserialize_ignores_eof_values (capabilities : Capabilities)
    (p : List Nat) (ppkts rpkts rest : List (List Nat))
    (e1 e2 e1' e2' : List Nat) (okv : ComStmtPrepareOk)
    (v1 v2 v1' v2' : EofPacket)
    (hflag : Capabilities.contains capabilities Capabilities.CLIENT_DEPRECATE_EOF = false)
    (hok : ComStmtPrepareOk.decode p = .ok okv)
    (hp : okv.params = ppkts.length) (hc : okv.columns = rpkts.length)
    (hp0 : 0 < okv.params) (hc0 : 0 < okv.columns)
    (h1 : EofPacket.decode e1 = .ok v1) (h1' : EofPacket.decode e1' = .ok v1')
    (h2 : EofPacket.decode e2 = .ok v2) (h2' : EofPacket.decode e2' = .ok v2') :
    ComStmtPrepareResp.deserialize
      (p :: (ppkts ++ e1 :: (rpkts ++ e2 :: rest))) capabilities =
    ComStmtPrepareResp.deserialize
      (p :: (ppkts ++ e1' :: (rpkts ++ e2' :: rest))) capabilities := by
  unfold ComStmtPrepareResp.deserialize
  simp only [next_packet, hok]
  rw [hp]
  rw [decodeDefGroup_eof_shape capabilities ppkts (rpkts ++ e2 :: rest) e1 v1 hflag h1
        (hp ▸ hp0),
      decodeDefGroup_eof_shape capabilities ppkts (rpkts ++ e2' :: rest) e1' v1' hflag h1'
        (hp ▸ hp0)]
  cases decodeColumnDefs ppkts.length ppkts with
  | error err => rfl
  | ok pr =>
    obtain ⟨cds, s0⟩ := pr
    simp only
    rw [hc]
    rw [decodeDefGroup_eof_shape capabilities rpkts rest e2 v2 hflag h2 (hc ▸ hc0),
        decodeDefGroup_eof_shape capabilities rpkts rest e2' v2' hflag h2' (hc ▸ hc0)]

/-- Witness for C7: two concrete legacy streams differing only in the
warning/status bytes of both EOF terminators decode identically. -/
theorem deserialize_ignores_eof_values_witness :
    ComStmtPrepareResp.deserialize
      [okPacket 1 1, colDefPacket, eofPacket 0 34, colDefPacket, eofPacket 0 34]
      Capabilities.CLIENT_PROTOCOL_41 =
    ComStmtPrepareResp.deserialize
      [okPacket 1 1, colDefPacket, eofPacket 9 7, colDefPacket, eofPacket 1 2]
      Capabilities.CLIENT_PROTOCOL_41 :=
  deserialize_ignores_eof_values Capabilities.CLIENT_PROTOCOL_41 (okPacket 1 1)
    [colDefPacket] [colDefPacket] [] (eofPacket 0 34) (eofPacket 0 34)
    (eofPacket 9 7) (eofPacket 1 2) ⟨1, 1, 1, 0⟩ ⟨0, 34⟩ ⟨0, 34⟩ ⟨9, 7⟩ ⟨1, 2⟩
    rfl rfl rfl rfl (by decide) (by decide) rfl rfl rfl rfl

/-!
Second part: the MySQL test-harness cleanup (`sqlx-mysql/src/testing/mod.rs`).

`cleanup_test_dbs` drives a connection: it SELECTs the registered test
database names from `_sqlx_test.databases`, DROPs each, and DELETEs the
successfully dropped names from the bookkeeping table.  The connection's
behaviour is modelled as an oracle (`TestDbEnv`) giving the SELECT result
and the outcome of each DROP / DELETE statement, and the function returns
its result together with the list of SQL statements it executed.
-/

/-- The driver error, reduced to what `cleanup_test_dbs` distinguishes:
its `match` treats `Error::Database(dbe)` specially and bubbles up every
other variant (represented here by `Io` and `PoolTimedOut`). -/
inductive SqlxError : Type
  | Database : String → SqlxError
  | Io : String → SqlxError
  | PoolTimedOut : SqlxError
deriving Repr, DecidableEq

/-- A SQL statement issued by `cleanup_test_dbs`, with the data it binds:
the SELECT of registered names, one `DROP DATABASE IF EXISTS name`, or the
`DELETE FROM _sqlx_test.databases WHERE db_name in (...)` binding the
listed names. -/
inductive DbStatement : Type
  | selectNames : DbStatement
  | dropDatabase : String → DbStatement
  | deleteFromDatabases : List String → DbStatement
deriving Repr, DecidableEq

/-- The connection oracle: the names the SELECT returns, and the outcome
of each DROP DATABASE and of the final DELETE (as a function of the names
it binds). -/
structure TestDbEnv : Type where
  listed : List String
  dropResult : String → Except SqlxError Unit
  deleteResult : List String → Except SqlxError Unit

/-- The `for db_name in delete_db_names` loop of `cleanup_test_dbs`
(source lines 58-73): on `Ok` push the name onto `deleted_db_names`; on
`Err(Error::Database(dbe))` print and continue, keeping the name
registered; on any other error return it, aborting the loop.  Returns the
accumulated successfully-dropped names (in arrival order) and the log of
DROP statements executed. -/
def dropLoop (env : TestDbEnv) :
    List String → List String → Except SqlxError (List String) × List DbStatement
  | [], deleted => (.ok deleted, [])
  | n :: rest, deleted =>
    match env.dropResult n with
    | .ok _ =>
      let r := dropLoop env rest (deleted ++ [n])
      (r.1, .dropDatabase n :: r.2)
    | .error (.Database _) =>
      let r := dropLoop env rest deleted
      (r.1, .dropDatabase n :: r.2)
    | .error e => (.error e, [.dropDatabase n])

/-- The function `cleanup_test_dbs` (source lines 37-110): SELECT the registered names;
if none, return `Ok(None)` at once; otherwise run the drop loop, then
DELETE the successfully dropped names from the bookkeeping table and
return `Ok(Some(count))` with the number of databases dropped.  (The
`placeholders_str` construction only shapes the SQL text — `NULL` when no
name was dropped — so the DELETE is modelled by the list of names it
binds.) -/
def cleanup_test_dbs (env : TestDbEnv) :
    Except SqlxError (Option Nat) × List DbStatement :=
  let delete_db_names := env.listed
  if delete_db_names.isEmpty then (.ok none, [.selectNames])
  else
    match dropLoop env delete_db_names [] with
    | (.error e, log) => (.error e, .selectNames :: log)
    | (.ok deleted_db_names, log) =>
      match env.deleteResult deleted_db_names with
      | .error e =>
        (.error e, .selectNames :: (log ++ [.deleteFromDatabases deleted_db_names]))
      | .ok _ =>
        (.ok (some deleted_db_names.length),
         .selectNames :: (log ++ [.deleteFromDatabases deleted_db_names]))

/-- The outcomes the drop loop tolerates without aborting: success, or a
database-kind error (assumed to mean the database is still in use). -/
def softOutcome (r : Except SqlxError Unit) : Prop :=
  r.isOk = true ∨ ∃ m, r = .error (.Database m)

theorem dropLoop_all_soft (env : TestDbEnv) :
    ∀ (names acc : List String),
    (∀ n ∈ names, softOutcome (env.dropResult n)) →
    dropLoop env names acc =
      (.ok (acc ++ names.filter (fun n => (env.dropResult n).isOk)),
       names.map DbStatement.dropDatabase) := by
  intro names
  induction names with
  | nil =>
    intro acc hsoft
    simp [dropLoop]
  | cons n rest ih =>
    intro acc hsoft
    have hn := hsoft n (by simp)
    have hrest : ∀ x ∈ rest, softOutcome (env.dropResult x) := by
      intro x hx
      exact hsoft x (by simp [hx])
    rcases hn with hok | ⟨m, hdbe⟩
    · cases hdr : env.dropResult n with
      | error e2 =>
        rw [hdr] at hok
        simp [Except.isOk, Except.toBool] at hok
      | ok u =>
        simp [dropLoop, hdr, ih (acc ++ [n]) hrest, List.filter_cons,
          Except.isOk, Except.toBool]
    · have hisok : (env.dropResult n).isOk = false := by
        rw [hdbe]
        rfl
      simp [dropLoop, hdbe, ih acc hrest, List.filter_cons, hisok,
        Except.isOk, Except.toBool]

theorem dropLoop_hard_error (env : TestDbEnv) :
    ∀ (pre : List String) (n : String) (post acc : List String) (e : SqlxError),
    (∀ x ∈ pre, softOutcome (env.dropResult x)) →
    env.dropResult n = .error e →
    (∀ m, e ≠ .Database m) →
    dropLoop env (pre ++ n :: post) acc =
      (.error e, pre.map DbStatement.dropDatabase ++ [DbStatement.dropDatabase n]) := by
  intro pre
  induction pre with
  | nil =>
    intro n post acc e hsoft herr hnd
    cases e with
    | Database m => exact absurd rfl (hnd m)
    | Io m => simp [dropLoop, herr]
    | PoolTimedOut => simp [dropLoop, herr]
  | cons q pre ih =>
    intro n post acc e hsoft herr hnd
    have hq := hsoft q (by simp)
    have hpre : ∀ x ∈ pre, softOutcome (env.dropResult x) := by
      intro x hx
      exact hsoft x (by simp [hx])
    rcases hq with hok | ⟨m, hdbe⟩
    · cases hdr : env.dropResult q with
      | error e2 =>
        rw [hdr] at hok
        simp [Except.isOk, Except.toBool] at hok
      | ok u =>
        simp [dropLoop, hdr, ih n post (acc ++ [q]) e hpre herr hnd]
    · simp [dropLoop, hdbe, ih n post acc e hpre herr hnd]

/-- C9: a database name whose DROP fails with a Database-kind error is
neither counted nor bound into the bookkeeping DELETE — it stays
registered for a later attempt — while the first non-Database error aborts
the cleanup and is returned (no DELETE is executed); on the tolerated path
the returned count is exactly the number of names whose DROP succeeded. -/
theorem cleanup_test_dbs_database_errors (env : TestDbEnv) :
    (∀ (n : String), (∃ m, env.dropResult n = .error (.Database m)) →
      n ∉ env.listed.filter (fun x => (env.dropResult x).isOk)) ∧
    (env.listed ≠ [] →
     (∀ n ∈ env.listed, softOutcome (env.dropResult n)) →
     env.deleteResult (env.listed.filter (fun x => (env.dropResult x).isOk)) = .ok () →
     cleanup_test_dbs env =
       (.ok (some (env.listed.filter (fun x => (env.dropResult x).isOk)).length),
        .selectNames :: (env.listed.map DbStatement.dropDatabase ++
          [.deleteFromDatabases (env.listed.filter (fun x => (env.dropResult x).isOk))]))) ∧
    (∀ (pre : List String) (n : String) (post : List String) (e : SqlxError),
      env.listed = pre ++ n :: post →
      (∀ x ∈ pre, softOutcome (env.dropResult x)) →
      env.dropResult n = .error e →
      (∀ m, e ≠ .Database m) →
      cleanup_test_dbs env =
        (.error e, .selectNames ::
          (pre.map DbStatement.dropDatabase ++ [DbStatement.dropDatabase n]))) := by
  refine ⟨?_, ?_, ?_⟩
  · rintro n ⟨m, hm⟩ hmem
    rw [List.mem_filter, hm] at hmem
    simp [Except.isOk, Except.toBool] at hmem
  · intro hne hsoft hdel
    have hloop := dropLoop_all_soft env env.listed [] hsoft
    simp only [cleanup_test_dbs]
    rw [if_neg (by simpa using hne), hloop]
    simp [hdel]
  · intro pre n post e hlist hsoft herr hnd
    have hloop := dropLoop_hard_error env pre n post [] e hsoft herr hnd
    simp only [cleanup_test_dbs]
    rw [if_neg (by simp [hlist]), hlist, hloop]

/-- A concrete cleanup oracle: three registered names, with b failing as a
database-kind error (still in use) and the others dropping fine. -/
def softEnv : TestDbEnv :=
  ⟨["a", "b", "c"],
   fun n => if n = "b" then .error (.Database "in use") else .ok (),
   fun _ => .ok ()⟩

/-- A concrete cleanup oracle whose second DROP fails with an I/O error. -/
def hardEnv : TestDbEnv :=
  ⟨["a", "x"],
   fun n => if n = "x" then .error (.Io "broken pipe") else .ok (),
   fun _ => .ok ()⟩

/-- Witness for C9: b (database-kind failure) is not counted and not bound
into the DELETE; the count is 2 for the two successful drops; the
I/O-failure oracle aborts with that error after the failing DROP. -/
theorem cleanup_test_dbs_database_errors_witness :
    "b" ∉ softEnv.listed.filter (fun x => (softEnv.dropResult x).isOk) ∧
    cleanup_test_dbs softEnv =
      (.ok (some (softEnv.listed.filter (fun x => (softEnv.dropResult x).isOk)).length),
       .selectNames :: (softEnv.listed.map DbStatement.dropDatabase ++
         [.deleteFromDatabases (softEnv.listed.filter (fun x => (softEnv.dropResult x).isOk))])) ∧
    cleanup_test_dbs hardEnv =
      (.error (.Io "broken pipe"),
       .selectNames :: (["a"].map DbStatement.dropDatabase ++ [DbStatement.dropDatabase "x"])) :=
  ⟨(cleanup_test_dbs_database_errors softEnv).1 "b" ⟨"in use", rfl⟩,
   (cleanup_test_dbs_database_errors softEnv).2.1 (by simp [softEnv])
     (by
       intro n hn
       simp only [softEnv, List.mem_cons, List.not_mem_nil, or_false] at hn
       rcases hn with rfl | rfl | rfl
       · exact Or.inl rfl
       · exact Or.inr ⟨"in use", rfl⟩
       · exact Or.inl rfl)
     rfl,
   (cleanup_test_dbs_database_errors hardEnv).2.2 ["a"] "x" [] (.Io "broken pipe") rfl
     (by
       intro x hx
       simp only [List.mem_singleton] at hx
       subst hx
       exact Or.inl rfl)
     rfl
     (by intro m hm; cases hm)⟩

/-- C10: cleanup_test_dbs returns Ok(None) — executing only the SELECT, no
DROP DATABASE and no DELETE — exactly when the bookkeeping table lists no
names, and a Some(count) result implies at least one name was listed. -/
theorem cleanup_test_dbs_none_iff (env : TestDbEnv) :
    (env.listed = [] →
      cleanup_test_dbs env = (.ok none, [DbStatement.selectNames])) ∧
    (∀ (c : Nat) (log : List DbStatement),
      cleanup_test_dbs env = (.ok (some c), log) → env.listed ≠ []) := by
  constructor
  · intro hnil
    simp [cleanup_test_dbs, hnil]
  · intro c log h hnil
    simp [cleanup_test_dbs, hnil] at h

/-- An oracle with an empty bookkeeping table. -/
def emptyEnv : TestDbEnv := ⟨[], fun _ => .ok (), fun _ => .ok ()⟩

/-- Witness for C10: the empty table yields Ok(None) with only the SELECT
executed, and a concrete Some(2) run implies a non-empty table. -/
theorem cleanup_test_dbs_none_iff_witness :
    cleanup_test_dbs emptyEnv = (.ok none, [DbStatement.selectNames]) ∧
    softEnv.listed ≠ [] :=
  ⟨(cleanup_test_dbs_none_iff emptyEnv).1 rfl,
   (cleanup_test_dbs_none_iff softEnv).2 2
     [.selectNames, .dropDatabase "a", .dropDatabase "b", .dropDatabase "c",
      .deleteFromDatabases ["a", "c"]] rfl⟩
